import Mathlib

/-!
Verification development for the OpenForBC GPU partitioning engine.

The repository ships the partition resolution and lifecycle engine described
in its specification (catalog merge, placement allocator, lifecycle manager,
sysfs and NVML ports); the source tree available here contains the README,
the install script, the project manifest and an exploratory notebook that
drives the engine (`GPU.get_gpus`, `GPU.from_uuid`, `get_supported_types`,
`get_creatable_types`, `create_partition`, `get_partitions`,
`Partition.destroy`, `GPUSysFsHandle.get_sriov_vfs`,
`get_mdev_type_available`, `INVALID_GPU_INSTANCE_PROFILE_ID`).  The engine
modules themselves (`openforbc.gpu`, `openforbc.sysfs`, ...) are not in the
tree, so every engine operation below is modelled from the specification's
own description of the data model and algorithms, with the notebook's calls
and constants used as additional evidence.
-/

namespace OpenForBC

/-- Modelled from the spec: the error taxonomy of §7 (the engine modules are
not in the source tree). -/
inductive OFBCError
  | DeviceNotFound
  | PartitionTypeNotFound
  | PartitionNotFound
  | CapacityExceeded
  | ModeConflict
  | Unsupported
  | PermissionDenied
  | DriverError
deriving DecidableEq, Repr

/-- Backend kind of a partition: mediated device for a guest VM, or a
host-resident instance. -/
inductive PKind
  | guestMdev
  | hostInstance
deriving DecidableEq, Repr

/-- Physical location hosting a partition: the device itself, one of its
virtual functions (by ascending index), or a host-instance slot. -/
inductive Loc
  | dev
  | vf (idx : Nat)
  | hostInst (gi : Nat)
deriving DecidableEq, Repr

/-- A partition: UUID (modelled as a natural number), partition-type id,
backend kind and physical location. -/
structure Partition where
  uuid : Nat
  typeId : Nat
  kind : PKind
  loc : Loc
deriving DecidableEq, Repr

/-- Modelled from the spec: the observable hardware state of one device
(the engine modules are not in the source tree).  `vfs` lists, in ascending
index order, the per-virtual-function `mdev_supported_types` tables (type id
↦ `available_instances`); `devTypes` is the device's own table, used only
when no virtual functions exist; `hostAvail` gives free host-instance slots
per type id; `parts` is the set of live partitions a scan would find. -/
structure DeviceState where
  vfs : List (List (Nat × Nat))
  devTypes : List (Nat × Nat)
  hostAvail : List (Nat × Nat)
  parts : List Partition
deriving DecidableEq, Repr

/-- Free-instance count recorded for type `t` in an `mdev_supported_types`
table (0 when the type has no node there). -/
def availOf (tbl : List (Nat × Nat)) (t : Nat) : Nat :=
  match tbl.lookup t with
  | some n => n
  | none => 0

/-- The `mdev_supported_types` table backing a location. -/
def tableAt (s : DeviceState) : Loc → List (Nat × Nat)
  | Loc.dev => s.devTypes
  | Loc.vf i => s.vfs[i]?.getD []
  | Loc.hostInst _ => []

/-- Free-instance count for type `t` at location `l`. -/
def freeAtLoc (s : DeviceState) (l : Loc) (t : Nat) : Nat :=
  availOf (tableAt s l) t

/-- Modelled from the spec: the guest-mdev candidate locations of §4.3 — the
virtual functions in ascending index order, or the device itself as sole
location when no virtual functions exist. -/
def guestLocs (s : DeviceState) : List Loc :=
  if s.vfs.isEmpty then [Loc.dev]
  else (List.range s.vfs.length).map Loc.vf

/-- Total free capacity for type `t` summed across all valid guest-mdev
locations. -/
def guestTotalFree (s : DeviceState) (t : Nat) : Nat :=
  ((guestLocs s).map (fun l => freeAtLoc s l t)).sum

/-- Modelled from the spec: the §4.3 guest-mdev placement allocator — return
the first location, in ascending index order, whose free-instance count for
the requested type is positive. -/
def placeGuest (s : DeviceState) (t : Nat) : Option Loc :=
  (guestLocs s).find? (fun l => decide (0 < freeAtLoc s l t))

/-- Is any guest-mdev partition live on the device? -/
def hasGuest (s : DeviceState) : Bool :=
  s.parts.any (fun p => p.kind == PKind.guestMdev)

/-- Is any host-instance partition live on the device? -/
def hasHost (s : DeviceState) : Bool :=
  s.parts.any (fun p => p.kind == PKind.hostInstance)

/-- Decrement the free-instance count recorded for type `t` (saturating at
zero, as the sysfs counter never goes negative). -/
def decAvail (tbl : List (Nat × Nat)) (t : Nat) : List (Nat × Nat) :=
  tbl.map (fun p => if p.1 = t then (p.1, p.2 - 1) else p)

/-- Increment the free-instance count recorded for type `t`. -/
def incAvail (tbl : List (Nat × Nat)) (t : Nat) : List (Nat × Nat) :=
  tbl.map (fun p => if p.1 = t then (p.1, p.2 + 1) else p)

/-- Rewrite the table backing location `l` (host-instance slots live in
`hostAvail`, not behind a `Loc`). -/
def updLoc (s : DeviceState) (l : Loc) (f : List (Nat × Nat) → List (Nat × Nat)) :
    DeviceState :=
  match l with
  | Loc.dev => { s with devTypes := f s.devTypes }
  | Loc.vf i => { s with vfs := s.vfs.set i (f (s.vfs[i]?.getD [])) }
  | Loc.hostInst _ => s

/-- Commit a successful guest-mdev creation: the sysfs `create` write
decrements the chosen location's `available_instances` and makes the new
mdev device appear under it. -/
def commitGuest (s : DeviceState) (l : Loc) (t u : Nat) : DeviceState :=
  let s1 := updLoc s l (fun tbl => decAvail tbl t)
  { s1 with parts := { uuid := u, typeId := t, kind := PKind.guestMdev, loc := l } :: s1.parts }

/-- Commit a successful host-instance creation: the vendor library consumes
one free slot for the profile and reports the new instance. -/
def commitHost (s : DeviceState) (t u : Nat) : DeviceState :=
  { s with
    hostAvail := decAvail s.hostAvail t
    parts := { uuid := u, typeId := t, kind := PKind.hostInstance, loc := Loc.hostInst u } :: s.parts }

/-- Remove a live partition: delete its entry and return its capacity to the
location (guest) or profile (host) it occupied. -/
def removePart (s : DeviceState) (p : Partition) : DeviceState :=
  let s1 :=
    match p.kind with
    | PKind.guestMdev => updLoc s p.loc (fun tbl => incAvail tbl p.typeId)
    | PKind.hostInstance => { s with hostAvail := incAvail s.hostAvail p.typeId }
  { s1 with parts := s1.parts.filter (fun q => q.uuid != p.uuid) }

/-- Outcome of the backend-specific creation action and its verification,
injected as an oracle: whether the create write itself succeeds, whether the
created entry is observable afterwards, and whether a best-effort cleanup
destroy would succeed. -/
structure Backend where
  writeOk : Bool
  verifyOk : Bool
  cleanupOk : Bool
deriving DecidableEq, Repr

/-- The backend oracle in which every hardware action succeeds. -/
def Backend.allOk : Backend := { writeOk := true, verifyOk := true, cleanupOk := true }

/-- Result of one `create_partition` call: the returned value, the hardware
state afterwards, and how many best-effort cleanup destroys were attempted. -/
structure CreateOutcome where
  result : Except OFBCError Partition
  state : DeviceState
  cleanupAttempts : Nat
deriving Repr

/-- Modelled from the spec: the §4.5 `create_partition` of the Lifecycle
Manager (the engine modules are not in the source tree).  Determine the
target mode; on a mode conflict fail `ModeConflict` without touching
hardware; otherwise ask the Placement Allocator for a location (failing
`CapacityExceeded` when none has free capacity), perform the backend
creation action with the caller-supplied fresh UUID, verify the created
entry is observable, and on a verification failure after a successful write
attempt exactly one best-effort destroy of the half-created entity and
surface the original failure. -/
def create_partition (s : DeviceState) (t : Nat) (k : PKind) (u : Nat)
    (b : Backend) : CreateOutcome :=
  match k with
  | PKind.guestMdev =>
    if hasHost s then
      { result := Except.error OFBCError.ModeConflict, state := s, cleanupAttempts := 0 }
    else
      match placeGuest s t with
      | none =>
        { result := Except.error OFBCError.CapacityExceeded, state := s, cleanupAttempts := 0 }
      | some l =>
        if b.writeOk then
          let s1 := commitGuest s l t u
          if b.verifyOk then
            { result := Except.ok { uuid := u, typeId := t, kind := PKind.guestMdev, loc := l }
              state := s1, cleanupAttempts := 0 }
          else
            { result := Except.error OFBCError.DriverError
              state :=
                if b.cleanupOk then
                  removePart s1 { uuid := u, typeId := t, kind := PKind.guestMdev, loc := l }
                else s1
              cleanupAttempts := 1 }
        else
          { result := Except.error OFBCError.DriverError, state := s, cleanupAttempts := 0 }
  | PKind.hostInstance =>
    if hasGuest s then
      { result := Except.error OFBCError.ModeConflict, state := s, cleanupAttempts := 0 }
    else if availOf s.hostAvail t = 0 then
      { result := Except.error OFBCError.CapacityExceeded, state := s, cleanupAttempts := 0 }
    else
      if b.writeOk then
        let s1 := commitHost s t u
        if b.verifyOk then
          { result := Except.ok { uuid := u, typeId := t, kind := PKind.hostInstance, loc := Loc.hostInst u }
            state := s1, cleanupAttempts := 0 }
        else
          { result := Except.error OFBCError.DriverError
            state :=
              if b.cleanupOk then
                removePart s1 { uuid := u, typeId := t, kind := PKind.hostInstance, loc := Loc.hostInst u }
              else s1
            cleanupAttempts := 1 }
      else
        { result := Except.error OFBCError.DriverError, state := s, cleanupAttempts := 0 }

/-- Modelled from the spec: §4.5 `list_partitions` — walk all locations and
return every live partition found.  Read-only and lock-free. -/
def list_partitions (s : DeviceState) : List Partition :=
  s.parts

/-- Modelled from the spec: §4.5 `destroy_partition` — locate the owning
partition by scanning what `list_partitions` scans, failing
`PartitionNotFound` when absent; perform the backend removal action, failing
`DriverError` when the backend refuses. -/
def destroy_partition (s : DeviceState) (u : Nat) (removeOk : Bool) :
    Except OFBCError DeviceState :=
  match s.parts.find? (fun p => p.uuid == u) with
  | none => Except.error OFBCError.PartitionNotFound
  | some p =>
    if removeOk then Except.ok (removePart s p)
    else Except.error OFBCError.DriverError

/-- Run a batch of guest-mdev `create_partition` calls in sequence, one per
supplied UUID — the spec's per-device exclusive lock serializes concurrent
mutating calls, so N concurrent creates execute as some sequential order. -/
def createMany (s : DeviceState) (t : Nat) : List Nat → List (Except OFBCError Partition) × DeviceState
  | [] => ([], s)
  | u :: us =>
    let o := create_partition s t PKind.guestMdev u Backend.allOk
    let r := createMany o.state t us
    (o.result :: r.1, r.2)

/-- The successfully created partitions of a batch, in call order. -/
def okParts : List (Except OFBCError Partition) → List Partition
  | [] => []
  | Except.ok p :: rs => p :: okParts rs
  | Except.error _ :: rs => okParts rs

/-- A guest (vGPU) partition type as reported by the vendor library: type
id, display name, and associated GPU-instance profile id. -/
structure VgpuType where
  id : Nat
  name : String
  gip : Nat
deriving DecidableEq, Repr

/-- A host GPU-instance profile: id, slice count and memory size in MB. -/
structure GIProfile where
  id : Nat
  sliceCount : Nat
  memorySizeMB : Nat
deriving DecidableEq, Repr

/-- The "no associated profile" sentinel, as in the notebook. -/
def INVALID_GPU_INSTANCE_PROFILE_ID : Nat := 0xFFFFFFFF

/-- Which backend(s) can realize a partition type. -/
inductive PTFlag
  | guestCapable
  | hostCapable
  | hostAndGuestCapable
deriving DecidableEq, Repr

/-- A catalog entry: partition-type id, display name, capability flags. -/
structure PartitionType where
  id : Nat
  name : String
  flag : PTFlag
deriving DecidableEq, Repr

/-- Display name synthesized from a host profile's slice count and memory
size, following the notebook's
`f"{gi_info.sliceCount}g.{round(gi_info.memorySizeMB / 1000)}gb"` (Python's
`round` modelled as add-half-then-divide on naturals). -/
def giName (p : GIProfile) : String :=
  toString p.sliceCount ++ "g." ++ toString ((p.memorySizeMB + 500) / 1000) ++ "gb"

/-- Modelled from the spec: the §4.2 per-guest-type merge step (the engine
modules are not in the source tree).  Look up the guest type's associated
instance-profile id; when it is not the sentinel and a matching host profile
exists, flag the type host-and-guest-capable and synthesize its display name
from the profile; otherwise keep the guest-reported name and flag it
guest-capable. -/
def mergeGuestType (profiles : List GIProfile) (g : VgpuType) : PartitionType :=
  if g.gip == INVALID_GPU_INSTANCE_PROFILE_ID then
    { id := g.id, name := g.name, flag := PTFlag.guestCapable }
  else
    match profiles.find? (fun p => p.id == g.gip) with
    | some p => { id := g.id, name := giName p, flag := PTFlag.hostAndGuestCapable }
    | none => { id := g.id, name := g.name, flag := PTFlag.guestCapable }

/-- Host profiles with no corresponding guest type, listed as host-capable. -/
def hostOnlyTypes (guests : List VgpuType) (profiles : List GIProfile) : List PartitionType :=
  (profiles.filter (fun p => !(guests.any (fun g => g.gip == p.id)))).map
    (fun p => { id := p.id, name := giName p, flag := PTFlag.hostCapable })

/-- Modelled from the spec: the pre-deduplication merged catalog in query
source order — the guest types (merged per `mergeGuestType`), then host-only
profiles; host profiles are consulted only when the device's
host-partitioning (MIG) mode is enabled. -/
def mergedCatalog (migEnabled : Bool) (guests : List VgpuType)
    (profiles : List GIProfile) : List PartitionType :=
  let hp := if migEnabled then profiles else []
  guests.map (mergeGuestType hp) ++ hostOnlyTypes guests hp

/-- Keep-first deduplication by a numeric key, accumulating the keys already
emitted. -/
def dedupByKeyAux {α : Type} (key : α → Nat) : List α → List Nat → List α
  | [], _ => []
  | x :: xs, seen =>
    if seen.contains (key x) then dedupByKeyAux key xs seen
    else x :: dedupByKeyAux key xs (key x :: seen)

/-- Deduplicate a catalog by type id, keeping first occurrences in order. -/
def dedupById (l : List PartitionType) : List PartitionType :=
  dedupByKeyAux PartitionType.id l []

/-- Modelled from the spec: §4.2 `supported_types` — the merged catalog,
deduplicated by id and otherwise left in query source order. -/
def supported_types (migEnabled : Bool) (guests : List VgpuType)
    (profiles : List GIProfile) : List PartitionType :=
  dedupById (mergedCatalog migEnabled guests profiles)

/-- Current free capacity of a partition type, summed across all valid
physical locations (guest-mdev locations plus host-instance slots). -/
def totalFreeCapacity (s : DeviceState) (tid : Nat) : Nat :=
  guestTotalFree s tid + availOf s.hostAvail tid

/-- Modelled from the spec: §4.1 `creatable_types` — the subset of
`supported_types` whose current free capacity is positive. -/
def creatable_types (s : DeviceState) (migEnabled : Bool) (guests : List VgpuType)
    (profiles : List GIProfile) : List PartitionType :=
  (supported_types migEnabled guests profiles).filter
    (fun pt => decide (0 < totalFreeCapacity s pt.id))

/-- A physical accelerator as enumerated: hardware UUID (modelled as a
natural number), model name, bus address. -/
structure GPU where
  uuid : Nat
  name : String
  pciId : String
deriving DecidableEq, Repr

namespace GPU

/-- Modelled from the spec: §4.1 `enumerate_devices` (the notebook's
`GPU.get_gpus`) — the devices reported by the enumeration source,
deduplicated by hardware identifier, in order. -/
def get_gpus (raw : List GPU) : List GPU :=
  dedupByKeyAux GPU.uuid raw []

/-- Modelled from the spec: §4.1 `device_by_identifier` (the notebook's
`GPU.from_uuid`) — the enumerated device carrying the requested UUID, or
`DeviceNotFound`. -/
def from_uuid (raw : List GPU) (u : Nat) : Except OFBCError GPU :=
  match (get_gpus raw).find? (fun g => g.uuid == u) with
  | some g => Except.ok g
  | none => Except.error OFBCError.DeviceNotFound

end GPU

/-- Number of partitions of a batch occupying location `l`. -/
def countLoc (ps : List Partition) (l : Loc) : Nat :=
  (ps.filter (fun p => p.loc == l)).length

/-- Modelled from the spec: the device states reachable through the
Lifecycle Manager — any hardware configuration with no partitions yet, plus
whatever `create_partition` and a successful `destroy_partition` produce. -/
inductive Reach : DeviceState → Prop
  | init (vfs : List (List (Nat × Nat))) (devT hostA : List (Nat × Nat)) :
      Reach { vfs := vfs, devTypes := devT, hostAvail := hostA, parts := [] }
  | create (s : DeviceState) (t : Nat) (k : PKind) (u : Nat) (b : Backend) :
      Reach s → Reach (create_partition s t k u b).state
  | destroy (s : DeviceState) (u : Nat) (removeOk : Bool) (s' : DeviceState) :
      Reach s → destroy_partition s u removeOk = Except.ok s' → Reach s'

/-- Example device for concrete checks: three virtual functions with 0, 2
and 1 free instances of type 7. -/
def exDev3 : DeviceState :=
  { vfs := [[(7, 0)], [(7, 2)], [(7, 1)]], devTypes := [], hostAvail := [], parts := [] }

/-- Example device for concrete checks: one virtual function with two free
instances of type 5. -/
def exDev1 : DeviceState :=
  { vfs := [[(5, 2)]], devTypes := [], hostAvail := [], parts := [] }

/-! ### Basic lemmas about capacity tables and placement -/

theorem availOf_cons (k v t : Nat) (rest : List (Nat × Nat)) :
    availOf ((k, v) :: rest) t = if t = k then v else availOf rest t := by
  simp only [availOf, List.lookup]
  by_cases h : t = k
  · simp [h]
  · simp [h, Nat.ne_of_lt, beq_eq_false_iff_ne.mpr h]

theorem availOf_decAvail_self (tbl : List (Nat × Nat)) (t : Nat) :
    availOf (decAvail tbl t) t = availOf tbl t - 1 := by
  induction tbl with
  | nil => rfl
  | cons p rest ih =>
    obtain ⟨k, v⟩ := p
    by_cases h : k = t
    · subst h
      simp [decAvail, availOf_cons]
    · have ht : t ≠ k := fun hc => h hc.symm
      simp [decAvail, availOf_cons, ht, h] at *
      simpa [decAvail] using ih

theorem updLoc_parts (s : DeviceState) (l : Loc) (f : List (Nat × Nat) → List (Nat × Nat)) :
    (updLoc s l f).parts = s.parts := by
  cases l <;> rfl

theorem updLoc_hostAvail (s : DeviceState) (l : Loc) (f : List (Nat × Nat) → List (Nat × Nat)) :
    (updLoc s l f).hostAvail = s.hostAvail := by
  cases l <;> rfl

theorem commitGuest_parts (s : DeviceState) (l : Loc) (t u : Nat) :
    (commitGuest s l t u).parts =
      { uuid := u, typeId := t, kind := PKind.guestMdev, loc := l } :: s.parts := by
  simp [commitGuest, updLoc_parts]

theorem hasHost_commitGuest (s : DeviceState) (l : Loc) (t u : Nat) :
    hasHost (commitGuest s l t u) = hasHost s := by
  simp [hasHost, commitGuest_parts, List.any_cons]

theorem hasGuest_commitGuest (s : DeviceState) (l : Loc) (t u : Nat) :
    hasGuest (commitGuest s l t u) = true := by
  simp [hasGuest, commitGuest_parts, List.any_cons]

theorem guestLocs_nodup (s : DeviceState) : (guestLocs s).Nodup := by
  unfold guestLocs
  split
  · simp
  · exact List.Nodup.map (fun a b h => Loc.vf.inj h) (List.nodup_range _)

theorem vfs_commitGuest_length (s : DeviceState) (l : Loc) (t u : Nat) :
    (commitGuest s l t u).vfs.length = s.vfs.length := by
  cases l <;> simp [commitGuest, updLoc]

theorem guestLocs_commitGuest (s : DeviceState) (l : Loc) (t u : Nat) :
    guestLocs (commitGuest s l t u) = guestLocs s := by
  have hlen := vfs_commitGuest_length s l t u
  have hie : (commitGuest s l t u).vfs.isEmpty = s.vfs.isEmpty := by
    rw [Bool.eq_iff_iff, List.isEmpty_iff_length_eq_zero,
      List.isEmpty_iff_length_eq_zero, hlen]
  unfold guestLocs
  rw [hie, hlen]

theorem placeGuest_some_mem {s : DeviceState} {t : Nat} {l : Loc}
    (h : placeGuest s t = some l) : l ∈ guestLocs s :=
  List.mem_of_find?_eq_some h

theorem placeGuest_some_pos {s : DeviceState} {t : Nat} {l : Loc}
    (h : placeGuest s t = some l) : 0 < freeAtLoc s l t := by
  have := List.find?_some h
  simpa using this

theorem placeGuest_eq_none_iff (s : DeviceState) (t : Nat) :
    placeGuest s t = none ↔ guestTotalFree s t = 0 := by
  unfold placeGuest guestTotalFree
  rw [List.find?_eq_none, List.sum_eq_zero_iff]
  constructor
  · intro h x hx
    simp only [List.mem_map] at hx
    obtain ⟨l, hl, rfl⟩ := hx
    have := h l hl
    simp only [decide_eq_true_eq] at this
    omega
  · intro h l hl
    have := h (freeAtLoc s l t) (List.mem_map_of_mem _ hl)
    simp [this]

theorem freeAtLoc_commitGuest (s : DeviceState) {l : Loc} (t u : Nat)
    (hl : l ∈ guestLocs s) (l' : Loc) :
    freeAtLoc (commitGuest s l t u) l' t =
      if l' = l then freeAtLoc s l t - 1 else freeAtLoc s l' t := by
  unfold guestLocs at hl
  split at hl
  · have hld : l = Loc.dev := by simpa using hl
    subst hld
    cases l' with
    | dev => simp [freeAtLoc, tableAt, commitGuest, updLoc, availOf_decAvail_self]
    | vf j => simp [freeAtLoc, tableAt, commitGuest, updLoc]
    | hostInst g => simp [freeAtLoc, tableAt, commitGuest, updLoc, availOf]
  · simp only [List.mem_map, List.mem_range] at hl
    obtain ⟨i, hi, rfl⟩ := hl
    cases l' with
    | dev => simp [freeAtLoc, tableAt, commitGuest, updLoc]
    | vf j =>
      by_cases hji : j = i
      · subst hji
        rw [if_pos rfl]
        simp only [freeAtLoc, tableAt, commitGuest, updLoc]
        rw [List.getElem?_set_self hi]
        simp [availOf_decAvail_self]
      · have hne : Loc.vf j ≠ Loc.vf i := by simp [hji]
        rw [if_neg hne]
        simp only [freeAtLoc, tableAt, commitGuest, updLoc]
        rw [List.getElem?_set_ne (fun h => hji h.symm)]
    | hostInst g => simp [freeAtLoc, tableAt, commitGuest, updLoc, availOf]

theorem sum_map_pred_dec {α : Type} [DecidableEq α] (x0 : α) (f g : α → Nat) :
    ∀ xs : List α, xs.Nodup → x0 ∈ xs → 0 < f x0 →
    (∀ x ∈ xs, g x = if x = x0 then f x - 1 else f x) →
    (xs.map g).sum + 1 = (xs.map f).sum := by
  intro xs
  induction xs with
  | nil => intro _ h; cases h
  | cons y ys ih =>
    intro hnd hmem hpos hg
    rcases List.mem_cons.mp hmem with rfl | hmem'
    · have hx0 : x0 ∉ ys := (List.nodup_cons.mp hnd).1
      have hmg : ys.map g = ys.map f :=
        List.map_congr_left (fun a ha => by
          rw [hg a (List.mem_cons_of_mem _ ha), if_neg (fun (h : a = x0) => hx0 (h ▸ ha))])
      have hgy : g x0 = f x0 - 1 := by
        rw [hg x0 (List.mem_cons_self _ _), if_pos rfl]
      simp only [List.map_cons, List.sum_cons, hmg, hgy]
      omega
    · have hyne : y ≠ x0 := fun h => (List.nodup_cons.mp hnd).1 (h ▸ hmem')
      have hgy : g y = f y := by
        rw [hg y (List.mem_cons_self _ _), if_neg hyne]
      have hrec := ih (List.nodup_cons.mp hnd).2 hmem' hpos
        (fun a ha => hg a (List.mem_cons_of_mem _ ha))
      simp only [List.map_cons, List.sum_cons, hgy]
      omega

theorem guestTotalFree_commitGuest {s : DeviceState} {t : Nat} {l : Loc} (u : Nat)
    (h : placeGuest s t = some l) :
    guestTotalFree (commitGuest s l t u) t + 1 = guestTotalFree s t := by
  have hmem := placeGuest_some_mem h
  have hpos := placeGuest_some_pos h
  unfold guestTotalFree
  rw [guestLocs_commitGuest]
  exact sum_map_pred_dec l (fun l' => freeAtLoc s l' t)
    (fun l' => freeAtLoc (commitGuest s l t u) l' t)
    (guestLocs s) (guestLocs_nodup s) hmem hpos
    (fun l' _ => by
      simp only []
      rw [freeAtLoc_commitGuest s t u hmem l']
      by_cases h : l' = l
      · rw [if_pos h, if_pos h, h]
      · rw [if_neg h, if_neg h])

theorem create_guest_ok_of_pos (s : DeviceState) (t u : Nat)
    (hh : hasHost s = false) (hpos : 0 < guestTotalFree s t) :
    ∃ l, placeGuest s t = some l ∧
      create_partition s t PKind.guestMdev u Backend.allOk =
        { result := Except.ok { uuid := u, typeId := t, kind := PKind.guestMdev, loc := l }
          state := commitGuest s l t u, cleanupAttempts := 0 } := by
  have hne : placeGuest s t ≠ none := fun hn => by
    rw [placeGuest_eq_none_iff] at hn
    omega
  obtain ⟨l, hl⟩ := Option.ne_none_iff_exists'.mp hne
  refine ⟨l, hl, ?_⟩
  simp [create_partition, hh, hl, Backend.allOk]

theorem create_guest_exhausted (s : DeviceState) (t u : Nat) (b : Backend)
    (hh : hasHost s = false) (h0 : guestTotalFree s t = 0) :
    create_partition s t PKind.guestMdev u b =
      { result := Except.error OFBCError.CapacityExceeded, state := s
        cleanupAttempts := 0 } := by
  have hn : placeGuest s t = none := (placeGuest_eq_none_iff s t).mpr h0
  simp [create_partition, hh, hn]

theorem countLoc_cons (p : Partition) (ps : List Partition) (l : Loc) :
    countLoc (p :: ps) l = countLoc ps l + (if p.loc = l then 1 else 0) := by
  by_cases h : p.loc = l <;> simp [countLoc, List.filter_cons, h]

/-- Master lemma about a serialized batch of guest-mdev creates: the first
`min N C` calls succeed carrying exactly the first `min N C` supplied UUIDs,
every failing call fails `CapacityExceeded`, and each location's free count
decreases by exactly the number of partitions placed on it. -/
theorem createMany_spec (t : Nat) :
    ∀ (us : List Nat) (s : DeviceState), hasHost s = false →
      ((createMany s t us).1.length = us.length) ∧
      ((okParts (createMany s t us).1).map Partition.uuid
        = us.take (min us.length (guestTotalFree s t))) ∧
      (∀ r ∈ (createMany s t us).1, (∀ p, r ≠ Except.ok p) →
        r = Except.error OFBCError.CapacityExceeded) ∧
      (∀ l, freeAtLoc (createMany s t us).2 l t
          + countLoc (okParts (createMany s t us).1) l = freeAtLoc s l t) := by
  intro us
  induction us with
  | nil =>
    intro s _
    simp [createMany, okParts, countLoc]
  | cons u us ih =>
    intro s hh
    by_cases h0 : guestTotalFree s t = 0
    · have hstep := create_guest_exhausted s t u Backend.allOk hh h0
      have hcm : createMany s t (u :: us)
          = (Except.error OFBCError.CapacityExceeded :: (createMany s t us).1,
            (createMany s t us).2) := by
        simp [createMany, hstep]
      obtain ⟨ih1, ih2, ih3, ih4⟩ := ih s hh
      rw [hcm]
      refine ⟨by simp [ih1], ?_, ?_, ?_⟩
      · simp only [okParts]
        rw [ih2, h0]
        simp
      · intro r hr hne
        rcases List.mem_cons.mp hr with rfl | hr'
        · rfl
        · exact ih3 r hr' hne
      · intro l
        simpa only [okParts] using ih4 l
    · obtain ⟨l, hpl, hstep⟩ := create_guest_ok_of_pos s t u hh (Nat.pos_of_ne_zero h0)
      have hcm : createMany s t (u :: us)
          = (Except.ok { uuid := u, typeId := t, kind := PKind.guestMdev, loc := l }
              :: (createMany (commitGuest s l t u) t us).1,
            (createMany (commitGuest s l t u) t us).2) := by
        simp [createMany, hstep]
      have hh1 : hasHost (commitGuest s l t u) = false := by
        rw [hasHost_commitGuest]
        exact hh
      obtain ⟨ih1, ih2, ih3, ih4⟩ := ih (commitGuest s l t u) hh1
      have hC : guestTotalFree (commitGuest s l t u) t + 1 = guestTotalFree s t :=
        guestTotalFree_commitGuest u hpl
      have hposl : 0 < freeAtLoc s l t := placeGuest_some_pos hpl
      rw [hcm]
      refine ⟨by simp [ih1], ?_, ?_, ?_⟩
      · simp only [okParts, List.map_cons]
        rw [ih2]
        have htake : (u :: us).take (min (u :: us).length (guestTotalFree s t))
            = u :: us.take (min (u :: us).length (guestTotalFree s t) - 1) :=
          List.take_cons (by simp; omega)
        rw [htake, List.length_cons]
        have hmin : min us.length (guestTotalFree (commitGuest s l t u) t)
            = min (us.length + 1) (guestTotalFree s t) - 1 := by omega
        rw [hmin]
      · intro r hr hne
        rcases List.mem_cons.mp hr with rfl | hr'
        · exact absurd rfl (hne _)
        · exact ih3 r hr' hne
      · intro l'
        have hfree := freeAtLoc_commitGuest s t u (placeGuest_some_mem hpl) l'
        have hcnt := countLoc_cons
          { uuid := u, typeId := t, kind := PKind.guestMdev, loc := l }
          (okParts (createMany (commitGuest s l t u) t us).1) l'
        have hrec := ih4 l'
        simp only [okParts]
        rw [hcnt]
        by_cases hll : l' = l
        · subst hll
          rw [hfree] at hrec
          simp at hrec ⊢
          omega
        · rw [hfree] at hrec
          have hne2 : ({ uuid := u, typeId := t, kind := PKind.guestMdev, loc := l }
              : Partition).loc ≠ l' := fun hx => hll (by simpa using hx.symm)
          rw [if_neg hne2]
          rw [if_neg hll] at hrec
          omega

/-! ### Mode and lifecycle lemmas -/

theorem removePart_parts (s : DeviceState) (p : Partition) :
    (removePart s p).parts = s.parts.filter (fun q => q.uuid != p.uuid) := by
  cases hk : p.kind <;> simp [removePart, hk, updLoc_parts]

theorem any_filter_false {ps : List Partition} {q pr : Partition → Bool}
    (h : ps.any pr = false) : (ps.filter q).any pr = false := by
  simp only [List.any_eq_false] at h ⊢
  exact fun x hx => h x (List.mem_filter.mp hx).1

theorem any_of_any_filter {ps : List Partition} {q pr : Partition → Bool}
    (h : (ps.filter q).any pr = true) : ps.any pr = true := by
  simp only [List.any_eq_true] at h ⊢
  obtain ⟨x, hx, hpx⟩ := h
  exact ⟨x, (List.mem_filter.mp hx).1, hpx⟩

theorem hasHost_removePart {s : DeviceState} (p : Partition)
    (h : hasHost s = false) : hasHost (removePart s p) = false := by
  unfold hasHost at h ⊢
  rw [removePart_parts]
  exact any_filter_false h

theorem hasGuest_removePart {s : DeviceState} (p : Partition)
    (h : hasGuest s = false) : hasGuest (removePart s p) = false := by
  unfold hasGuest at h ⊢
  rw [removePart_parts]
  exact any_filter_false h

theorem commitHost_parts (s : DeviceState) (t u : Nat) :
    (commitHost s t u).parts =
      { uuid := u, typeId := t, kind := PKind.hostInstance, loc := Loc.hostInst u } :: s.parts := rfl

theorem hasGuest_commitHost (s : DeviceState) (t u : Nat) :
    hasGuest (commitHost s t u) = hasGuest s := by
  simp [hasGuest, commitHost_parts, List.any_cons]

theorem hasHost_commitHost (s : DeviceState) (t u : Nat) :
    hasHost (commitHost s t u) = true := by
  simp [hasHost, commitHost_parts, List.any_cons]

theorem create_guest_state_cases (s : DeviceState) (t u : Nat) (b : Backend)
    (hh : hasHost s = false) :
    (create_partition s t PKind.guestMdev u b).state = s ∨
    (∃ l, (create_partition s t PKind.guestMdev u b).state = commitGuest s l t u) ∨
    (∃ l, (create_partition s t PKind.guestMdev u b).state
        = removePart (commitGuest s l t u)
            { uuid := u, typeId := t, kind := PKind.guestMdev, loc := l }) := by
  rcases hp : placeGuest s t with _ | l
  · left
    simp [create_partition, hh, hp]
  · cases hw : b.writeOk
    · left
      simp [create_partition, hh, hp, hw]
    · cases hv : b.verifyOk
      · cases hc : b.cleanupOk
        · right; left
          exact ⟨l, by simp [create_partition, hh, hp, hw, hv, hc]⟩
        · right; right
          exact ⟨l, by simp [create_partition, hh, hp, hw, hv, hc]⟩
      · right; left
        exact ⟨l, by simp [create_partition, hh, hp, hw, hv]⟩

theorem create_host_state_cases (s : DeviceState) (t u : Nat) (b : Backend)
    (hg : hasGuest s = false) :
    (create_partition s t PKind.hostInstance u b).state = s ∨
    (create_partition s t PKind.hostInstance u b).state = commitHost s t u ∨
    (create_partition s t PKind.hostInstance u b).state
      = removePart (commitHost s t u)
          { uuid := u, typeId := t, kind := PKind.hostInstance, loc := Loc.hostInst u } := by
  by_cases ha : availOf s.hostAvail t = 0
  · left
    simp [create_partition, hg, ha]
  · cases hw : b.writeOk
    · left
      simp [create_partition, hg, ha, hw]
    · cases hv : b.verifyOk
      · cases hc : b.cleanupOk
        · right; left
          simp [create_partition, hg, ha, hw, hv, hc]
        · right; right
          simp [create_partition, hg, ha, hw, hv, hc]
      · right; left
        simp [create_partition, hg, ha, hw, hv]

theorem hasHost_create_guest_state (s : DeviceState) (t u : Nat) (b : Backend)
    (hh : hasHost s = false) :
    hasHost (create_partition s t PKind.guestMdev u b).state = false := by
  rcases create_guest_state_cases s t u b hh with h | ⟨l, h⟩ | ⟨l, h⟩
  · rw [h]; exact hh
  · rw [h, hasHost_commitGuest]; exact hh
  · rw [h]
    exact hasHost_removePart _ (by rw [hasHost_commitGuest]; exact hh)

theorem hasGuest_create_host_state (s : DeviceState) (t u : Nat) (b : Backend)
    (hg : hasGuest s = false) :
    hasGuest (create_partition s t PKind.hostInstance u b).state = false := by
  rcases create_host_state_cases s t u b hg with h | h | h
  · rw [h]; exact hg
  · rw [h, hasGuest_commitHost]; exact hg
  · rw [h]
    exact hasGuest_removePart _ (by rw [hasGuest_commitHost]; exact hg)

theorem destroy_ok_parts {s : DeviceState} {u : Nat} {removeOk : Bool} {s' : DeviceState}
    (h : destroy_partition s u removeOk = Except.ok s') :
    ∃ p : Partition, s'.parts = s.parts.filter (fun q => q.uuid != p.uuid) := by
  unfold destroy_partition at h
  rcases hf : s.parts.find? (fun p : Partition => p.uuid == u) with _ | p
  · rw [hf] at h
    cases h
  · rw [hf] at h
    cases removeOk with
    | false => cases h
    | true =>
      refine ⟨p, ?_⟩
      have hs : s' = removePart s p := by
        simpa using h.symm
      rw [hs, removePart_parts]

/-- Mode exclusivity invariant: no reachable state carries both a guest-mdev
and a host-instance partition. -/
theorem reach_mode_exclusive : ∀ s, Reach s → ¬(hasGuest s = true ∧ hasHost s = true) := by
  intro s hr
  induction hr with
  | init vfs devT hostA => simp [hasGuest, hasHost]
  | create s t k u b hr ih =>
    cases k with
    | guestMdev =>
      by_cases hh : hasHost s = true
      · have hst : (create_partition s t PKind.guestMdev u b).state = s := by
          simp [create_partition, hh]
        rw [hst]
        exact ih
      · have hh' : hasHost s = false := by simpa using hh
        have := hasHost_create_guest_state s t u b hh'
        rintro ⟨_, hhst⟩
        rw [this] at hhst
        cases hhst
    | hostInstance =>
      by_cases hg : hasGuest s = true
      · have hst : (create_partition s t PKind.hostInstance u b).state = s := by
          simp [create_partition, hg]
        rw [hst]
        exact ih
      · have hg' : hasGuest s = false := by simpa using hg
        have := hasGuest_create_host_state s t u b hg'
        rintro ⟨hgst, _⟩
        rw [this] at hgst
        cases hgst
  | destroy s u removeOk s' hr hdes ih =>
    obtain ⟨p, hparts⟩ := destroy_ok_parts hdes
    rintro ⟨hg, hh⟩
    refine ih ⟨?_, ?_⟩
    · unfold hasGuest at hg ⊢
      rw [hparts] at hg
      exact any_of_any_filter hg
    · unfold hasHost at hh ⊢
      rw [hparts] at hh
      exact any_of_any_filter hh

theorem create_guest_ok_elim {s : DeviceState} {t u : Nat} {b : Backend} {p : Partition}
    (h : (create_partition s t PKind.guestMdev u b).result = Except.ok p) :
    p.uuid = u ∧ p ∈ (create_partition s t PKind.guestMdev u b).state.parts ∧
      hasGuest (create_partition s t PKind.guestMdev u b).state = true := by
  by_cases hh : hasHost s = true
  · simp [create_partition, hh] at h
  · have hh' : hasHost s = false := by simpa using hh
    rcases hp : placeGuest s t with _ | l
    · simp [create_partition, hh', hp] at h
    · cases hw : b.writeOk
      · simp [create_partition, hh', hp, hw] at h
      · cases hv : b.verifyOk
        · simp [create_partition, hh', hp, hw, hv] at h
        · have hcr : create_partition s t PKind.guestMdev u b
              = { result := Except.ok { uuid := u, typeId := t, kind := PKind.guestMdev, loc := l }
                  state := commitGuest s l t u, cleanupAttempts := 0 } := by
            simp [create_partition, hh', hp, hw, hv]
          rw [hcr] at h ⊢
          simp only [Except.ok.injEq] at h
          subst h
          refine ⟨rfl, ?_, hasGuest_commitGuest s l t u⟩
          rw [commitGuest_parts]
          exact List.mem_cons_self _ _

theorem create_host_ok_elim {s : DeviceState} {t u : Nat} {b : Backend} {p : Partition}
    (h : (create_partition s t PKind.hostInstance u b).result = Except.ok p) :
    p.uuid = u ∧ p ∈ (create_partition s t PKind.hostInstance u b).state.parts ∧
      hasHost (create_partition s t PKind.hostInstance u b).state = true := by
  by_cases hg : hasGuest s = true
  · simp [create_partition, hg] at h
  · have hg' : hasGuest s = false := by simpa using hg
    by_cases ha : availOf s.hostAvail t = 0
    · simp [create_partition, hg', ha] at h
    · cases hw : b.writeOk
      · simp [create_partition, hg', ha, hw] at h
      · cases hv : b.verifyOk
        · simp [create_partition, hg', ha, hw, hv] at h
        · have hcr : create_partition s t PKind.hostInstance u b
              = { result := Except.ok
                    { uuid := u, typeId := t, kind := PKind.hostInstance, loc := Loc.hostInst u }
                  state := commitHost s t u, cleanupAttempts := 0 } := by
            simp [create_partition, hg', ha, hw, hv]
          rw [hcr] at h ⊢
          simp only [Except.ok.injEq] at h
          subst h
          refine ⟨rfl, ?_, hasHost_commitHost s t u⟩
          rw [commitHost_parts]
          exact List.mem_cons_self _ _

theorem destroy_of_mem {s : DeviceState} {x : Partition} (hx : x ∈ s.parts) :
    ∃ s2, destroy_partition s x.uuid true = Except.ok s2 ∧
      x.uuid ∉ (list_partitions s2).map Partition.uuid := by
  have hsome : (s.parts.find? (fun p : Partition => p.uuid == x.uuid)).isSome :=
    List.find?_isSome.mpr ⟨x, hx, by simp⟩
  obtain ⟨q, hq⟩ := Option.isSome_iff_exists.mp hsome
  have hqu : q.uuid = x.uuid := by
    simpa using List.find?_some hq
  refine ⟨removePart s q, ?_, ?_⟩
  · simp [destroy_partition, hq]
  · rw [list_partitions, removePart_parts]
    intro hmem
    simp only [List.mem_map] at hmem
    obtain ⟨y, hy, hyu⟩ := hmem
    have hfy := (List.mem_filter.mp hy).2
    simp only [bne_iff_ne, ne_eq] at hfy
    exact hfy (hyu.trans hqu.symm)

/-! ### Catalog, dedup and placement-order lemmas -/

theorem dedupByKeyAux_sublist {α : Type} (key : α → Nat) :
    ∀ (l : List α) (seen : List Nat), (dedupByKeyAux key l seen).Sublist l := by
  intro l
  induction l with
  | nil => intro seen; simp [dedupByKeyAux]
  | cons x xs ih =>
    intro seen
    by_cases h : seen.contains (key x) = true
    · rw [show dedupByKeyAux key (x :: xs) seen = dedupByKeyAux key xs seen from by
        simp only [dedupByKeyAux]
        rw [if_pos h]]
      exact (ih seen).cons x
    · rw [show dedupByKeyAux key (x :: xs) seen
          = x :: dedupByKeyAux key xs (key x :: seen) from by
        simp only [dedupByKeyAux]
        rw [if_neg h]]
      exact (ih _).cons₂ x

theorem dedupByKeyAux_nodup {α : Type} (key : α → Nat) :
    ∀ (l : List α) (seen : List Nat),
      ((dedupByKeyAux key l seen).map key).Nodup ∧
        ∀ i ∈ seen, i ∉ (dedupByKeyAux key l seen).map key := by
  intro l
  induction l with
  | nil => intro seen; simp [dedupByKeyAux]
  | cons x xs ih =>
    intro seen
    by_cases h : seen.contains (key x) = true
    · rw [show dedupByKeyAux key (x :: xs) seen = dedupByKeyAux key xs seen from by
        simp only [dedupByKeyAux]
        rw [if_pos h]]
      exact ih seen
    · have hnotin : key x ∉ seen := fun hm => h (List.elem_iff.mpr hm)
      obtain ⟨ihn, ihs⟩ := ih (key x :: seen)
      rw [show dedupByKeyAux key (x :: xs) seen
          = x :: dedupByKeyAux key xs (key x :: seen) from by
        simp only [dedupByKeyAux]
        rw [if_neg h]]
      constructor
      · rw [List.map_cons, List.nodup_cons]
        exact ⟨ihs (key x) (List.mem_cons_self _ _), ihn⟩
      · intro i hi
        rw [List.map_cons, List.mem_cons]
        rintro (rfl | hm)
        · exact hnotin hi
        · exact ihs i (List.mem_cons_of_mem _ hi) hm

theorem find?_first {α : Type} (p : α → Bool) :
    ∀ (xs : List α) (x : α), xs.find? p = some x →
      ∃ i : Nat, xs[i]? = some x ∧ p x = true ∧
        ∀ j : Nat, j < i → ∀ y, xs[j]? = some y → p y = false := by
  intro xs
  induction xs with
  | nil => intro x h; cases h
  | cons a as ih =>
    intro x h
    cases hp : p a with
    | true =>
      rw [List.find?_cons_of_pos _ hp] at h
      obtain rfl : a = x := by injection h
      exact ⟨0, by simp, hp, fun j hj y _ => absurd hj (by omega)⟩
    | false =>
      rw [List.find?_cons_of_neg _ (by simp [hp])] at h
      obtain ⟨i, hi, hpx, hf⟩ := ih x h
      refine ⟨i + 1, by simpa using hi, hpx, ?_⟩
      intro j hj y hy
      cases j with
      | zero =>
        obtain rfl : a = y := by simpa using hy
        exact hp
      | succ j' => exact hf j' (by omega) y (by simpa using hy)

theorem range_getElem?_inv {n i a : Nat} (h : (List.range n)[i]? = some a) :
    i < n ∧ a = i := by
  rcases List.getElem?_eq_some.mp h with ⟨hlt, hv⟩
  rw [List.getElem_range] at hv
  rw [List.length_range] at hlt
  exact ⟨hlt, hv.symm⟩

/-! ### Claim theorems -/

/-- C8: Catalog deduplication — `supported_types` never contains two entries
with the same type id, and it applies no reordering beyond id-deduplication:
it is a sublist of the merged catalog in query source order. -/
theorem C8_catalog_dedup (migEnabled : Bool) (guests : List VgpuType)
    (profiles : List GIProfile) :
    ((supported_types migEnabled guests profiles).map PartitionType.id).Nodup ∧
      (supported_types migEnabled guests profiles).Sublist
        (mergedCatalog migEnabled guests profiles) := by
  unfold supported_types dedupById
  exact ⟨(dedupByKeyAux_nodup PartitionType.id _ _).1,
    dedupByKeyAux_sublist PartitionType.id _ _⟩

/-- C6: Creatable subset — every entry of `creatable_types` is present in
`supported_types` and has free capacity, summed across all valid physical
locations, strictly greater than 0 at query time. -/
theorem C6_creatable_subset (s : DeviceState) (migEnabled : Bool)
    (guests : List VgpuType) (profiles : List GIProfile) (pt : PartitionType)
    (h : pt ∈ creatable_types s migEnabled guests profiles) :
    pt ∈ supported_types migEnabled guests profiles ∧ 0 < totalFreeCapacity s pt.id := by
  have hm := List.mem_filter.mp h
  exact ⟨hm.1, by simpa using hm.2⟩

/-- Witness for C6 on a one-type device with one free instance. -/
theorem C6_creatable_subset_witness :
    ({ id := 7, name := "T7", flag := PTFlag.guestCapable } : PartitionType)
        ∈ supported_types true [{ id := 7, name := "T7", gip := 0xFFFFFFFF }] [] ∧
      0 < totalFreeCapacity
        { vfs := [], devTypes := [(7, 1)], hostAvail := [], parts := [] } 7 :=
  C6_creatable_subset
    { vfs := [], devTypes := [(7, 1)], hostAvail := [], parts := [] }
    true [{ id := 7, name := "T7", gip := 0xFFFFFFFF }] []
    { id := 7, name := "T7", flag := PTFlag.guestCapable } (by decide)

/-- C5: Catalog merge with sentinel — a guest type whose associated
instance-profile id equals the sentinel `0xFFFFFFFF` is flagged
guest-capable and keeps the guest-reported name; one whose id is not the
sentinel (with the matching host profile present) is flagged
host-and-guest-capable with its display name synthesized from the profile's
slice count and memory size. -/
theorem C5_catalog_sentinel (profiles : List GIProfile) (g : VgpuType) :
    (g.gip = INVALID_GPU_INSTANCE_PROFILE_ID →
      mergeGuestType profiles g
        = { id := g.id, name := g.name, flag := PTFlag.guestCapable }) ∧
    (g.gip ≠ INVALID_GPU_INSTANCE_PROFILE_ID →
      ∀ p, profiles.find? (fun q => q.id == g.gip) = some p →
        mergeGuestType profiles g
          = { id := g.id, name := giName p, flag := PTFlag.hostAndGuestCapable }) := by
  constructor
  · intro h
    simp [mergeGuestType, h]
  · intro h p hp
    simp [mergeGuestType, beq_iff_eq, h, hp]

/-- Witness for C5 on the notebook's A100 data: type 468 (no profile)
stays guest-capable with its raw name; type 474 (profile 19) becomes
host-and-guest-capable with the synthesized `1g.5gb`-style name. -/
theorem C5_catalog_sentinel_witness :
    mergeGuestType [{ id := 19, sliceCount := 1, memorySizeMB := 4864 }]
        { id := 468, name := "GRID A100-4C", gip := INVALID_GPU_INSTANCE_PROFILE_ID }
      = { id := 468, name := "GRID A100-4C", flag := PTFlag.guestCapable } ∧
    mergeGuestType [{ id := 19, sliceCount := 1, memorySizeMB := 4864 }]
        { id := 474, name := "GRID A100-1-5C", gip := 19 }
      = { id := 474, name := giName { id := 19, sliceCount := 1, memorySizeMB := 4864 }
          flag := PTFlag.hostAndGuestCapable } :=
  ⟨(C5_catalog_sentinel [{ id := 19, sliceCount := 1, memorySizeMB := 4864 }]
      { id := 468, name := "GRID A100-4C", gip := INVALID_GPU_INSTANCE_PROFILE_ID }).1 rfl,
    (C5_catalog_sentinel [{ id := 19, sliceCount := 1, memorySizeMB := 4864 }]
      { id := 474, name := "GRID A100-1-5C", gip := 19 }).2 (by decide) _ rfl⟩

/-- C7: Capacity exhaustion is failing and effect-free — when the requested
type's total free capacity across all locations is 0 (and the device is not
in the conflicting mode, which would fail `ModeConflict` first),
`create_partition` fails `CapacityExceeded`, leaves the hardware state
unchanged and attempts no cleanup; both for guest-mdev and host-instance
requests. -/
theorem C7_capacity_exhaustion (s : DeviceState) (t u : Nat) (b : Backend) :
    (hasHost s = false → guestTotalFree s t = 0 →
      create_partition s t PKind.guestMdev u b =
        { result := Except.error OFBCError.CapacityExceeded, state := s
          cleanupAttempts := 0 }) ∧
    (hasGuest s = false → availOf s.hostAvail t = 0 →
      create_partition s t PKind.hostInstance u b =
        { result := Except.error OFBCError.CapacityExceeded, state := s
          cleanupAttempts := 0 }) := by
  constructor
  · intro hh h0
    exact create_guest_exhausted s t u b hh h0
  · intro hg ha
    simp [create_partition, hg, ha]

/-- Witness for C7 on a device with zero free instances of type 7. -/
theorem C7_capacity_exhaustion_witness :
    create_partition { vfs := [[(7, 0)]], devTypes := [], hostAvail := [], parts := [] }
        7 PKind.guestMdev 1 Backend.allOk =
      { result := Except.error OFBCError.CapacityExceeded
        state := { vfs := [[(7, 0)]], devTypes := [], hostAvail := [], parts := [] }
        cleanupAttempts := 0 } :=
  (C7_capacity_exhaustion
    { vfs := [[(7, 0)]], devTypes := [], hostAvail := [], parts := [] }
    7 1 Backend.allOk).1 (by decide) (by decide)

/-- C10: UUID lookup round trip — every device in `GPU.get_gpus`'s result is
found again by `GPU.from_uuid` under its UUID, with the same UUID and the
same model name. -/
theorem C10_uuid_roundtrip (raw : List GPU) (g : GPU) (h : g ∈ GPU.get_gpus raw) :
    ∃ g', GPU.from_uuid raw g.uuid = Except.ok g'
      ∧ g'.uuid = g.uuid ∧ g'.name = g.name := by
  have hnd : ((GPU.get_gpus raw).map GPU.uuid).Nodup :=
    (dedupByKeyAux_nodup GPU.uuid raw []).1
  have hsome : ((GPU.get_gpus raw).find? (fun x => x.uuid == g.uuid)).isSome :=
    List.find?_isSome.mpr ⟨g, h, by simp⟩
  obtain ⟨q, hq⟩ := Option.isSome_iff_exists.mp hsome
  have hqmem : q ∈ GPU.get_gpus raw := List.mem_of_find?_eq_some hq
  have hqu : q.uuid = g.uuid := by
    simpa using List.find?_some hq
  refine ⟨q, ?_, hqu, ?_⟩
  · simp [GPU.from_uuid, hq]
  · rw [List.inj_on_of_nodup_map hnd hqmem h hqu]

/-- Witness for C10 on a two-device enumeration with a duplicate entry. -/
theorem C10_uuid_roundtrip_witness :
    ∃ g', GPU.from_uuid
        [{ uuid := 1, name := "A", pciId := "x" },
          { uuid := 2, name := "B", pciId := "y" },
          { uuid := 1, name := "A2", pciId := "z" }] 1 = Except.ok g'
      ∧ g'.uuid = 1 ∧ g'.name = "A" :=
  C10_uuid_roundtrip
    [{ uuid := 1, name := "A", pciId := "x" },
      { uuid := 2, name := "B", pciId := "y" },
      { uuid := 1, name := "A2", pciId := "z" }]
    { uuid := 1, name := "A", pciId := "x" } (by decide)

/-- C3: Deterministic ascending-first placement — on a device exposing
virtual functions, the allocator returns the first virtual function in
ascending index order with a positive free-instance count for the requested
type, never the device itself (which is the sole candidate location only
when no virtual functions exist); in particular with
`[vf0: free=0, vf1: free=2, vf2: free=1]` the partition lands on `vf1`. -/
theorem C3_ascending_first_placement :
    (∀ (s : DeviceState) (t i : Nat), s.vfs ≠ [] →
      placeGuest s t = some (Loc.vf i) →
        i < s.vfs.length ∧ 0 < freeAtLoc s (Loc.vf i) t ∧
          ∀ j, j < i → freeAtLoc s (Loc.vf j) t = 0) ∧
    (∀ (s : DeviceState) (t : Nat) (l : Loc), s.vfs ≠ [] →
      placeGuest s t = some l → ∃ i, l = Loc.vf i) ∧
    (∀ s : DeviceState, s.vfs = [] → guestLocs s = [Loc.dev]) ∧
    placeGuest
        exDev3 7
      = some (Loc.vf 1) := by
  refine ⟨?_, ?_, ?_, by decide⟩
  · intro s t i hv hpl
    have hie : s.vfs.isEmpty = false :=
      Bool.eq_false_iff.mpr (fun hx => hv (List.isEmpty_iff.mp hx))
    have hpl' : (List.map Loc.vf (List.range s.vfs.length)).find?
        (fun l => decide (0 < freeAtLoc s l t)) = some (Loc.vf i) := by
      simpa [placeGuest, guestLocs, hie] using hpl
    obtain ⟨i0, hget, hpx, hfirst⟩ := find?_first _ _ _ hpl'
    rw [List.getElem?_map] at hget
    rcases hr : (List.range s.vfs.length)[i0]? with _ | m
    · rw [hr] at hget
      cases hget
    · rw [hr] at hget
      simp only [Option.map_some'] at hget
      have hmi : m = i := Loc.vf.inj (by injection hget)
      obtain ⟨hi0lt, hmi0⟩ := range_getElem?_inv hr
      have hii0 : i = i0 := by omega
      subst hii0
      refine ⟨hi0lt, by simpa using hpx, ?_⟩
      intro j hj
      have hjlt : j < s.vfs.length := by omega
      have hgj : (List.map Loc.vf (List.range s.vfs.length))[j]? = some (Loc.vf j) := by
        rw [List.getElem?_map, List.getElem?_range hjlt]
        rfl
      have hfj := hfirst j hj (Loc.vf j) hgj
      simp only [decide_eq_false_iff_not, Nat.not_lt, Nat.le_zero] at hfj
      exact hfj
  · intro s t l hv hpl
    have hie : s.vfs.isEmpty = false :=
      Bool.eq_false_iff.mpr (fun hx => hv (List.isEmpty_iff.mp hx))
    have hm := placeGuest_some_mem hpl
    rw [guestLocs, hie] at hm
    simp only [Bool.false_eq_true, if_false, List.mem_map] at hm
    obtain ⟨i, _, rfl⟩ := hm
    exact ⟨i, rfl⟩
  · intro s h
    simp [guestLocs, h]

/-- Witness for C3: the spec's own example, with free counts 0, 2, 1. -/
theorem C3_ascending_first_placement_witness :
    1 < exDev3.vfs.length ∧
      0 < freeAtLoc exDev3 (Loc.vf 1) 7 ∧
      ∀ j, j < 1 →
        freeAtLoc exDev3 (Loc.vf j) 7 = 0 :=
  C3_ascending_first_placement.1
    exDev3
    7 1 (by decide) (by decide)

/-- C2: Create/list/destroy round trip — a successful `create_partition`
returns a partition whose UUID appears in `list_partitions` immediately
afterwards, and a subsequent `destroy_partition` on that UUID succeeds and
removes it from `list_partitions`. -/
theorem C2_create_list_destroy (s : DeviceState) (t : Nat) (k : PKind) (u : Nat)
    (b : Backend) (p : Partition)
    (h : (create_partition s t k u b).result = Except.ok p) :
    p.uuid ∈ (list_partitions (create_partition s t k u b).state).map Partition.uuid ∧
      ∃ s2, destroy_partition (create_partition s t k u b).state p.uuid true = Except.ok s2 ∧
        p.uuid ∉ (list_partitions s2).map Partition.uuid := by
  have hmem : p ∈ (create_partition s t k u b).state.parts := by
    cases k
    · exact (create_guest_ok_elim h).2.1
    · exact (create_host_ok_elim h).2.1
  exact ⟨List.mem_map_of_mem _ hmem, destroy_of_mem hmem⟩

/-- Witness for C2 on a one-VF device with two free instances. -/
theorem C2_create_list_destroy_witness :
    (1 : Nat) ∈ (list_partitions
        (create_partition exDev1
          5 PKind.guestMdev 1 Backend.allOk).state).map Partition.uuid ∧
      ∃ s2, destroy_partition
          (create_partition exDev1
            5 PKind.guestMdev 1 Backend.allOk).state 1 true = Except.ok s2 ∧
        (1 : Nat) ∉ (list_partitions s2).map Partition.uuid :=
  C2_create_list_destroy
    exDev1
    5 PKind.guestMdev 1 Backend.allOk
    { uuid := 1, typeId := 5, kind := PKind.guestMdev, loc := Loc.vf 0 } rfl

theorem create_not_ok_of_verify_false {s : DeviceState} {t u : Nat} {b : Backend}
    (hv : b.verifyOk = false) (k : PKind) (p : Partition) :
    (create_partition s t k u b).result ≠ Except.ok p := by
  intro heq
  cases k with
  | guestMdev =>
    by_cases hh : hasHost s = true
    · simp [create_partition, hh] at heq
    · have hh' : hasHost s = false := by simpa using hh
      rcases hp : placeGuest s t with _ | l
      · simp [create_partition, hh', hp] at heq
      · cases hw : b.writeOk
        · simp [create_partition, hh', hp, hw] at heq
        · simp [create_partition, hh', hp, hw, hv] at heq
  | hostInstance =>
    by_cases hg : hasGuest s = true
    · simp [create_partition, hg] at heq
    · have hg' : hasGuest s = false := by simpa using hg
      by_cases ha : availOf s.hostAvail t = 0
      · simp [create_partition, hg', ha] at heq
      · cases hw : b.writeOk
        · simp [create_partition, hg', ha, hw] at heq
        · simp [create_partition, hg', ha, hw, hv] at heq

theorem filter_ne_uuid_of_fresh {ps : List Partition} {u : Nat}
    (hfresh : u ∉ ps.map Partition.uuid) :
    ps.filter (fun q => q.uuid != u) = ps := by
  rw [List.filter_eq_self]
  intro a ha
  simp only [bne_iff_ne, ne_eq]
  intro hau
  exact hfresh (hau ▸ List.mem_map_of_mem Partition.uuid ha)

/-- C4: Atomic creation with single cleanup — a partition whose creation
cannot be verified is never returned as a success; and on a verification
failure after a successful backend write, `create_partition` performs
exactly one best-effort destroy, surfaces the original `DriverError` even
when that cleanup itself fails, and (when the cleanup succeeds) leaves no
partition registered; both for the guest-mdev and the host-instance
backends. -/
theorem C4_atomic_create (s : DeviceState) (t u : Nat) (b : Backend) :
    (∀ k p, b.verifyOk = false → (create_partition s t k u b).result ≠ Except.ok p) ∧
    (hasHost s = false → b.writeOk = true → b.verifyOk = false →
      0 < guestTotalFree s t →
      (create_partition s t PKind.guestMdev u b).result
          = Except.error OFBCError.DriverError ∧
        (create_partition s t PKind.guestMdev u b).cleanupAttempts = 1 ∧
        (b.cleanupOk = true → u ∉ s.parts.map Partition.uuid →
          (create_partition s t PKind.guestMdev u b).state.parts = s.parts)) ∧
    (hasGuest s = false → b.writeOk = true → b.verifyOk = false →
      availOf s.hostAvail t ≠ 0 →
      (create_partition s t PKind.hostInstance u b).result
          = Except.error OFBCError.DriverError ∧
        (create_partition s t PKind.hostInstance u b).cleanupAttempts = 1 ∧
        (b.cleanupOk = true → u ∉ s.parts.map Partition.uuid →
          (create_partition s t PKind.hostInstance u b).state.parts = s.parts)) := by
  refine ⟨fun k p hv => create_not_ok_of_verify_false hv k p, ?_, ?_⟩
  · intro hh hw hv hpos
    have hne : placeGuest s t ≠ none := fun hn => by
      rw [placeGuest_eq_none_iff] at hn
      omega
    obtain ⟨l, hpl⟩ := Option.ne_none_iff_exists'.mp hne
    have hcr : create_partition s t PKind.guestMdev u b =
        { result := Except.error OFBCError.DriverError
          state :=
            if b.cleanupOk then
              removePart (commitGuest s l t u)
                { uuid := u, typeId := t, kind := PKind.guestMdev, loc := l }
            else commitGuest s l t u
          cleanupAttempts := 1 } := by
      simp [create_partition, hh, hpl, hw, hv]
    refine ⟨by rw [hcr], by rw [hcr], ?_⟩
    intro hc hfresh
    rw [hcr]
    simp only [hc, if_true]
    rw [removePart_parts, commitGuest_parts, List.filter_cons]
    simp only [bne_self_eq_false, Bool.false_eq_true, if_false]
    exact filter_ne_uuid_of_fresh hfresh
  · intro hg hw hv ha
    have hcr : create_partition s t PKind.hostInstance u b =
        { result := Except.error OFBCError.DriverError
          state :=
            if b.cleanupOk then
              removePart (commitHost s t u)
                { uuid := u, typeId := t, kind := PKind.hostInstance, loc := Loc.hostInst u }
            else commitHost s t u
          cleanupAttempts := 1 } := by
      simp [create_partition, hg, ha, hw, hv]
    refine ⟨by rw [hcr], by rw [hcr], ?_⟩
    intro hc hfresh
    rw [hcr]
    simp only [hc, if_true]
    rw [removePart_parts, commitHost_parts, List.filter_cons]
    simp only [bne_self_eq_false, Bool.false_eq_true, if_false]
    exact filter_ne_uuid_of_fresh hfresh

/-- Witness for C4: a failed verification on a one-VF device is reported as
`DriverError` after exactly one cleanup, leaving no partition registered. -/
theorem C4_atomic_create_witness :
    (create_partition exDev1
        5 PKind.guestMdev 1
        { writeOk := true, verifyOk := false, cleanupOk := true }).result
        = Except.error OFBCError.DriverError ∧
      (create_partition exDev1
        5 PKind.guestMdev 1
        { writeOk := true, verifyOk := false, cleanupOk := true }).cleanupAttempts = 1 ∧
      (({ writeOk := true, verifyOk := false, cleanupOk := true } : Backend).cleanupOk = true →
        (1 : Nat) ∉ (exDev1.parts).map Partition.uuid →
        (create_partition exDev1
          5 PKind.guestMdev 1
          { writeOk := true, verifyOk := false, cleanupOk := true }).state.parts
          = exDev1.parts) :=
  (C4_atomic_create exDev1
    5 1 { writeOk := true, verifyOk := false, cleanupOk := true }).2.1
    (by decide) rfl rfl (by decide)

/-- C1: Mode exclusivity — no reachable device state carries a guest-mdev
and a host-instance partition at the same time; after a successful guest
create, any host-instance create fails `ModeConflict` leaving the state
untouched with no cleanup attempted, and symmetrically after a successful
host create. -/
theorem C1_mode_exclusivity :
    (∀ s, Reach s → ¬(hasGuest s = true ∧ hasHost s = true)) ∧
    (∀ (s : DeviceState) (t u : Nat) (b : Backend) (p : Partition),
      (create_partition s t PKind.guestMdev u b).result = Except.ok p →
      ∀ (t' u' : Nat) (b' : Backend),
        create_partition (create_partition s t PKind.guestMdev u b).state
            t' PKind.hostInstance u' b'
          = { result := Except.error OFBCError.ModeConflict
              state := (create_partition s t PKind.guestMdev u b).state
              cleanupAttempts := 0 }) ∧
    (∀ (s : DeviceState) (t u : Nat) (b : Backend) (p : Partition),
      (create_partition s t PKind.hostInstance u b).result = Except.ok p →
      ∀ (t' u' : Nat) (b' : Backend),
        create_partition (create_partition s t PKind.hostInstance u b).state
            t' PKind.guestMdev u' b'
          = { result := Except.error OFBCError.ModeConflict
              state := (create_partition s t PKind.hostInstance u b).state
              cleanupAttempts := 0 }) := by
  refine ⟨reach_mode_exclusive, ?_, ?_⟩
  · intro s t u b p h t' u' b'
    have hg := (create_guest_ok_elim h).2.2
    generalize hS : (create_partition s t PKind.guestMdev u b).state = S at hg ⊢
    simp [create_partition, hg]
  · intro s t u b p h t' u' b'
    have hh := (create_host_ok_elim h).2.2
    generalize hS : (create_partition s t PKind.hostInstance u b).state = S at hh ⊢
    simp [create_partition, hh]

/-- Witness for C1: a freshly enumerated device is reachable and conflict
free, and a host create right after a successful guest create fails
`ModeConflict` with the state untouched. -/
theorem C1_mode_exclusivity_witness :
    ¬(hasGuest exDev1 = true ∧
        hasHost exDev1 = true) ∧
      create_partition
          (create_partition exDev1
            5 PKind.guestMdev 1 Backend.allOk).state 9 PKind.hostInstance 2 Backend.allOk
        = { result := Except.error OFBCError.ModeConflict
            state := (create_partition
              exDev1
              5 PKind.guestMdev 1 Backend.allOk).state
            cleanupAttempts := 0 } :=
  ⟨C1_mode_exclusivity.1 _ (Reach.init [[(5, 2)]] [] []),
    C1_mode_exclusivity.2.1 exDev1
      5 1 Backend.allOk { uuid := 1, typeId := 5, kind := PKind.guestMdev, loc := Loc.vf 0 }
      rfl 9 2 Backend.allOk⟩

/-- C9: Concurrent creation bound — N create calls for one type, serialized
behind the per-device lock, produce exactly `min N C` successes (`C` the
total free capacity), carrying pairwise-distinct UUIDs and never exceeding
any location's capacity, while every failing call fails `CapacityExceeded`. -/
theorem C9_concurrent_bound (s : DeviceState) (t : Nat) (us : List Nat)
    (hh : hasHost s = false) (hnd : us.Nodup) :
    ((createMany s t us).1.length = us.length) ∧
    ((okParts (createMany s t us).1).length = min us.length (guestTotalFree s t)) ∧
    (∀ r ∈ (createMany s t us).1, (∀ p, r ≠ Except.ok p) →
      r = Except.error OFBCError.CapacityExceeded) ∧
    ((okParts (createMany s t us).1).map Partition.uuid).Nodup ∧
    (∀ l, countLoc (okParts (createMany s t us).1) l ≤ freeAtLoc s l t) := by
  obtain ⟨h1, h2, h3, h4⟩ := createMany_spec t us s hh
  refine ⟨h1, ?_, h3, ?_, ?_⟩
  · have hlen := congrArg List.length h2
    rw [List.length_map, List.length_take] at hlen
    omega
  · rw [h2]
    exact (List.take_sublist _ _).nodup hnd
  · intro l
    have := h4 l
    omega

/-- Witness for C9: four serialized creates against total capacity 3 yield
three successes and one `CapacityExceeded`. -/
theorem C9_concurrent_bound_witness :
    ((createMany exDev3 7 [100, 101, 102, 103]).1.length = [100, 101, 102, 103].length) ∧
    ((okParts (createMany exDev3 7 [100, 101, 102, 103]).1).length
      = min [100, 101, 102, 103].length
          (guestTotalFree exDev3 7)) ∧
    (∀ r ∈ (createMany exDev3 7 [100, 101, 102, 103]).1,
      (∀ p, r ≠ Except.ok p) → r = Except.error OFBCError.CapacityExceeded) ∧
    ((okParts (createMany exDev3 7 [100, 101, 102, 103]).1).map Partition.uuid).Nodup ∧
    (∀ l, countLoc (okParts (createMany exDev3 7 [100, 101, 102, 103]).1) l
      ≤ freeAtLoc exDev3 l 7) :=
  C9_concurrent_bound
    exDev3
    7 [100, 101, 102, 103] (by decide) (by decide)

end OpenForBC
